import Mathlib

/-!
Shallow embedding of `src/tos/HL_LL_global/0.global_tos.py`, the one source
file of the repository: a batch script computing latitude-weighted global
mean time series from gridded CMIP6 sea-surface-temperature data.

Python floats are modelled by exact rationals, numpy cosine composed with
degree-to-radian conversion by an abstract function `cosd : Q -> Q`, pandas
data frames by a structure of column names plus positional rows, and
raised exceptions by `Option`/`Except` results.
-/

set_option autoImplicit false

namespace GlobalTos

/-- Arithmetic mean of a list of rationals, as numpy `mean`: sum divided by
length (division by zero is total in `ℚ`, matching no use on empty data). -/
def meanQ (xs : List ℚ) : ℚ := xs.sum / (xs.length : ℚ)

/-- Line 113 and 114 of the script: `weight = np.cos(np.deg2rad(lat));
weight /= weight.mean()`.  `cosd` stands for the composite
`fun φ => cos (deg2rad φ)`; the result holds for every such function. -/
def latWeights (cosd : ℚ → ℚ) (lats : List ℚ) : List ℚ :=
  let c := lats.map cosd
  c.map (fun x => x / meanQ c)

/-- Consecutive windows of width `w`: the reshape performed by
`xarray.coarsen`.  `k` is the number of windows, `xs.length / w` at the call
site. -/
def windows {α : Type} (w : ℕ) : ℕ → List α → List (List α)
  | 0, _ => []
  | k + 1, xs => xs.take w :: windows w k (xs.drop w)

/-- Line 116, time part: `.coarsen(time=12).mean()` with xarray's default
`boundary="exact"`, which raises `ValueError` (here `none`) when the length
of the time dimension is not a multiple of the window. -/
def coarsenMean (w : ℕ) (xs : List ℚ) : Option (List ℚ) :=
  if 0 < w ∧ w ∣ xs.length then
    some ((windows w (xs.length / w) xs).map meanQ)
  else
    none

/-- Does `pat` match at the head of `s`? -/
def matchesAt : List Char → List Char → Bool
  | [], _ => true
  | _ :: _, [] => false
  | p :: ps, c :: cs => p == c && matchesAt ps cs

/-- Python `str.replace`: scan left to right, replacing every non-overlapping
occurrence of `pat` by `repl`.  Fuel-indexed structural recursion; at the call
sites `pat` is non-empty and the fuel is the length of the string, which is
enough for the scan to finish. -/
def replaceAllF (pat repl : List Char) : ℕ → List Char → List Char
  | 0, s => s
  | fuel + 1, s =>
    match s with
    | [] => []
    | c :: rest =>
      if matchesAt pat s then repl ++ replaceAllF pat repl fuel (s.drop pat.length)
      else c :: replaceAllF pat repl fuel rest

/-- Python `s.replace(pat, repl)` on strings. -/
def pyReplace (s pat repl : String) : String :=
  String.mk (replaceAllF pat.data repl.data s.data.length s.data)

/-- Lines 140 and 141 of the driver loop:
`ofile = outdir + file.replace("/", "_") + ".csv";
ofile = ofile.replace("gs:__cmip6_", "")` with `outdir = "./global/"`. -/
def ofileOf (file : String) : String :=
  pyReplace ("./global/" ++ pyReplace file "/" "_" ++ ".csv") "gs:__cmip6_" ""

/-- A Python scalar held in a data frame cell: an int, a string or a float
(modelled exactly as a rational). -/
inductive PVal where
  | i : Int → PVal
  | s : String → PVal
  | q : ℚ → PVal
deriving DecidableEq

/-- A pandas `DataFrame`: a list of column names and positional rows.  A row
`r` is aligned with `cols`, the cell of column `cols[k]` sitting at `r[k]`. -/
structure DFrame (α : Type) where
  cols : List String
  rows : List (List α)
deriving DecidableEq

/-- Cell of row `r` (aligned with `cols`) in the column named `c`:
position of the first column named `c`, then the entry of `r` there. -/
def getVal {α : Type} (cols : List String) (r : List α) (c : String) : Option α :=
  (cols.findIdx? (fun c2 => c2 == c)).bind (fun i => r.get? i)

/-- Pandas column assignment `df[c] = v`: overwrite the column when the name
exists, otherwise append a new column at the end, constant `v` in each row. -/
def setCol {α : Type} (c : String) (v : α) (df : DFrame α) : DFrame α :=
  match df.cols.findIdx? (fun c2 => c2 == c) with
  | some i => ⟨df.cols, df.rows.map (fun r => r.set i v)⟩
  | none => ⟨df.cols ++ [c], df.rows.map (fun r => r ++ [v])⟩

/-- Pandas `df.drop(columns=c)`. -/
def dropCol {α : Type} (c : String) (df : DFrame α) : DFrame α :=
  ⟨df.cols.filter (fun c2 => !(c2 == c)),
   df.rows.map (fun r => ((df.cols.zip r).filter (fun p => !(p.1 == c))).map Prod.snd)⟩

/-- Pandas `df1.merge(df2)`: inner join on every column name the two frames
share.  Output columns are those of `df1` followed by the non-shared columns
of `df2`; output rows pair each row of `df1`, in order, with each row of
`df2` agreeing with it on all shared columns. -/
def mergeDF {α : Type} [DecidableEq α] (df1 df2 : DFrame α) : DFrame α :=
  let common := df1.cols.filter (fun c => df2.cols.contains c)
  { cols := df1.cols ++ df2.cols.filter (fun c => !(df1.cols.contains c)),
    rows := df1.rows.flatMap (fun r1 =>
      df2.rows.filterMap (fun r2 =>
        if ∀ c ∈ common, getVal df1.cols r1 c = getVal df2.cols r2 c
        then some (r1 ++ ((df2.cols.zip r2).filter
                (fun p => !(df1.cols.contains p.1))).map Prod.snd)
        else none)) }

/-- Lines 80 to 95, `combine_df`, with the mutation of the two arguments made
explicit: the triple is (returned frame, final state of `df1`, final state of
`df2`).  The body sets `df1["j"] = 1` and `df2["j"] = 1`, merges, and drops
the column `j` from the merge result only. -/
def combineDfSt (df1 df2 : DFrame PVal) : DFrame PVal × DFrame PVal × DFrame PVal :=
  let d1 := setCol "j" (PVal.i 1) df1
  let d2 := setCol "j" (PVal.i 1) df2
  (dropCol "j" (mergeDF d1 d2), d1, d2)

/-- The value returned by `combine_df`. -/
def combine_df (df1 df2 : DFrame PVal) : DFrame PVal :=
  (combineDfSt df1 df2).1

/-- A Python object passed to `selstr`: the script only ever passes strings,
but the function checks its argument dynamically. -/
inductive PyObj where
  | str : String → PyObj
  | pyint : Int → PyObj
  | pylist : List Int → PyObj
deriving DecidableEq

/-- The exception kinds the modelled fragments can raise. -/
inductive PyErr where
  | typeError
  | indexError
deriving DecidableEq

deriving instance DecidableEq for Except

/-- Python subscript `s[i]` on a string with a non-negative index: the
character at `i`, or `IndexError` when `i` is out of range. -/
def pyIndex (s : List Char) (i : ℕ) : Except PyErr Char :=
  match s.get? i with
  | some c => Except.ok c
  | none => Except.error PyErr.indexError

/-- The accumulation loop of `selstr`: index the string at each position of
the range in turn, stopping at the first failure. -/
def selstrGo (s : List Char) : List ℕ → Except PyErr (List Char)
  | [] => Except.ok []
  | i :: is =>
    match pyIndex s i, selstrGo s is with
    | Except.ok c, Except.ok cs => Except.ok (c :: cs)
    | Except.error e, _ => Except.error e
    | Except.ok _, Except.error e => Except.error e

/-- Lines 61 to 77, `selstr(a, start, stop)`: raise `TypeError` unless `a` is
a single string, else join the characters `a[i]` for `i` in
`range(start, stop)`. -/
def selstr (a : PyObj) (start stop : ℕ) : Except PyErr String :=
  match a with
  | PyObj.str s =>
    (selstrGo s.data (List.range' start (stop - start))).map (fun cs => String.mk cs)
  | _ => Except.error PyErr.typeError

/-- First name of `names` present in `coords`, as the loop of
`get_lat_name`. -/
def firstPresent (names : List String) (coords : List String) : Option String :=
  match names with
  | [] => none
  | n :: ns => if n ∈ coords then some n else firstPresent ns coords

/-- Lines 48 to 58, `get_lat_name(ds)` on the list of coordinate names of the
dataset: the first of `lat`, `latitude` present, `RuntimeError` (modelled as
`none`) when neither is. -/
def get_lat_name (coords : List String) : Option String :=
  firstPresent ["lat", "latitude"] coords

/-- An in-memory CMIP6 dataset as the script uses it: identifying attributes,
coordinate names, latitude values, longitude size, a numeric time coordinate,
and named data variables.  Each entry of `vars` is
(variable name, units attribute, data indexed time × lat × lon). -/
structure DSet where
  variable_id : String
  experiment_id : String
  variant_label : String
  source_id : String
  coordNames : List String
  lats : List ℚ
  nlon : ℕ
  times : List ℚ
  vars : List (String × String × List (List (List ℚ)))

/-- Lines 29 to 45, `get_ds_meta(ds)`: a one-row frame of the identifying
attributes.  `ds[v].attrs["units"]` raises `KeyError` (modelled as `none`)
when the declared `variable_id` is not among the data variables. -/
def get_ds_meta_m (ds : DSet) : Option (DFrame PVal) :=
  match ds.vars.find? (fun p => p.1 == ds.variable_id) with
  | some (_, u, _) =>
    some ⟨["variable", "experiment", "units", "ensemble", "model"],
      [[PVal.s ds.variable_id, PVal.s ds.experiment_id, PVal.s u,
        PVal.s ds.variant_label, PVal.s ds.source_id]]⟩
  | none => none

/-- Line 116, spatial part, for one data variable:
`(ds * weight).mean(other_dims)` with `other_dims = {lat, lon}`.  The weight
vector broadcasts along latitude; the mean over the two spatial dimensions
divides by `nlat * nlon`. -/
def weightedMeanSeries (w : List ℚ) (nlat nlon : ℕ) (data : List (List (List ℚ))) : List ℚ :=
  data.map (fun slice =>
    ((slice.zip w).map (fun p => (p.1.map (fun v => v * p.2)).sum)).sum
      / ((nlat : ℚ) * (nlon : ℚ)))

/-- The spatial reduction and yearly coarsening applied to every data
variable of the dataset, as an xarray `Dataset` operation does; `none` when
the coarsening window does not divide the series length. -/
def coarsenAll (w : List ℚ) (nlat nlon : ℕ) :
    List (String × String × List (List (List ℚ))) → Option (List (String × List ℚ))
  | [] => some []
  | p :: ps =>
    match coarsenMean 12 (weightedMeanSeries w nlat nlon p.2.2), coarsenAll w nlat nlon ps with
    | some ys, some rest => some ((p.1, ys) :: rest)
    | _, _ => none

/-- Line 120: `year = list(map(lambda x: selstr(x, start=0, stop=4), t))`,
propagating a raised exception as `none`. -/
def yearsOf : List String → Option (List String)
  | [] => some []
  | x :: xs =>
    match selstr (PyObj.str x) 0 4, yearsOf xs with
    | Except.ok y, some ys => some (y :: ys)
    | _, _ => none

/-- Lines 98 to 129, `global_mean(path)`, on the dataset the path opens.
`cosd` is the numpy cosine-of-degrees and `fmt` the `strftime("%Y%m%d")`
rendering of a (window-averaged) time coordinate value.  Any exception on
the way is `none`; note line 123 reads the hardcoded variable name `tos`. -/
def global_mean_m (cosd : ℚ → ℚ) (fmt : ℚ → String) (ds : DSet) : Option (DFrame PVal) :=
  match get_ds_meta_m ds with
  | none => none
  | some meta =>
    match get_lat_name ds.coordNames with
    | none => none
    | some _ =>
      match coarsenAll (latWeights cosd ds.lats) ds.lats.length ds.nlon ds.vars,
          coarsenMean 12 ds.times with
      | some reduced, some tmeans =>
        match yearsOf (tmeans.map fmt) with
        | none => none
        | some year =>
          match reduced.find? (fun p => p.1 == "tos") with
          | none => none
          | some (_, val) =>
            let df : DFrame PVal :=
              ⟨["year", "value"],
               List.zipWith (fun y v => [PVal.s y, PVal.q v]) year val⟩
            some (setCol "area" (PVal.s "global") (combine_df meta df))
      | _, _ => none

/-- The observable outcome of a run of the driver loop: the files written
(output path and table) and the diagnostic lines printed. -/
structure RunLog where
  written : List (String × DFrame PVal)
  printed : List String
deriving DecidableEq

/-- Lines 138 to 145, the driver loop: per file, compute the output name,
run the reduction, and write; on any exception print one line naming the
file and move on.  `process` abstracts the body `global_mean(file)` together
with the write, `none` standing for a raised exception. -/
def driverLoop (process : String → Option (DFrame PVal)) : List String → RunLog
  | [] => ⟨[], []⟩
  | f :: fs =>
    let rest := driverLoop process fs
    match process f with
    | some out => ⟨(ofileOf f, out) :: rest.written, rest.printed⟩
    | none => ⟨rest.written, ("problem with " ++ f) :: rest.printed⟩

/-! Helper lemmas. -/

theorem sum_map_div (xs : List ℚ) (m : ℚ) : (xs.map (fun x => x / m)).sum = xs.sum / m := by
  induction xs with
  | nil => simp
  | cons a t ih => simp [ih, add_div]

/-- Normalizing any cosine list by its nonzero mean yields mean 1. -/
theorem meanQ_latWeights (cosd : ℚ → ℚ) (lats : List ℚ)
    (hm : meanQ (lats.map cosd) ≠ 0) : meanQ (latWeights cosd lats) = 1 := by
  have hS : (lats.map cosd).sum ≠ 0 := by
    intro h
    apply hm
    unfold meanQ
    rw [h, zero_div]
  have hn : (((lats.map cosd).length : ℚ)) ≠ 0 := by
    intro h
    apply hm
    unfold meanQ
    rw [h, div_zero]
  show ((lats.map cosd).map (fun x => x / meanQ (lats.map cosd))).sum
      / ((((lats.map cosd).map (fun x => x / meanQ (lats.map cosd))).length : ℚ)) = 1
  rw [sum_map_div, List.length_map]
  unfold meanQ
  field_simp
  rw [List.length_map] at hn
  exact div_self hn

theorem windows_length {α : Type} (w : ℕ) : ∀ (k : ℕ) (xs : List α), (windows w k xs).length = k
  | 0, _ => rfl
  | k + 1, xs => by simp [windows, windows_length w k]

theorem coarsenMean_dvd (xs : List ℚ) (hd : 12 ∣ xs.length) :
    coarsenMean 12 xs = some ((windows 12 (xs.length / 12) xs).map meanQ) := by
  unfold coarsenMean
  rw [if_pos ⟨by norm_num, hd⟩]

theorem coarsenMean_not_dvd (xs : List ℚ) (hd : ¬ 12 ∣ xs.length) :
    coarsenMean 12 xs = none := by
  unfold coarsenMean
  rw [if_neg]
  intro h
  exact hd h.2

/-! Claim theorems. -/

/-- Claim C1: for every latitude axis with at least one latitude value and
non-zero mean cosine, the weight vector built as the cosine of latitude
divided by the mean of those cosines has arithmetic mean exactly 1. -/
theorem C1_lat_weight_mean_one (cosd : ℚ → ℚ) (lats : List ℚ)
    (h0 : lats ≠ []) (hm : meanQ (lats.map cosd) ≠ 0) :
    meanQ (latWeights cosd lats) = 1 :=
  meanQ_latWeights cosd lats hm

theorem C1_lat_weight_mean_one_witness :
    ([(0 : ℚ)] ≠ []) ∧ meanQ ([(0 : ℚ)].map (fun _ => (1 : ℚ))) ≠ 0 ∧
      meanQ (latWeights (fun _ => (1 : ℚ)) [(0 : ℚ)]) = 1 :=
  ⟨by simp, by norm_num [meanQ],
   C1_lat_weight_mean_one (fun _ => 1) [0] (by simp) (by norm_num [meanQ])⟩

/-- Claim C2 as stated is false: a 25-element monthly series does not yield
2 yearly rows; the coarsening, with boundary "exact", raises instead. -/
theorem C2_counterexample :
    ¬ ∃ ys, coarsenMean 12 (List.replicate 25 (1 : ℚ)) = some ys ∧ ys.length = 2 := by
  rintro ⟨ys, h1, _⟩
  have h2 : coarsenMean 12 (List.replicate 25 (1 : ℚ)) = none := by decide
  rw [h2] at h1
  exact Option.noConfusion h1

/-- Claim C2 amended: a monthly series whose length is exactly divisible by
12 coarsens to length / 12 yearly rows; a length not divisible by 12 raises
a ValueError (the file is then skipped), rather than dropping the trailing
partial window. -/
theorem C2_coarsen_rows (xs : List ℚ) :
    (12 ∣ xs.length → ∃ ys, coarsenMean 12 xs = some ys ∧ ys.length = xs.length / 12) ∧
      (¬ 12 ∣ xs.length → coarsenMean 12 xs = none) := by
  constructor
  · intro hd
    refine ⟨_, coarsenMean_dvd xs hd, ?_⟩
    rw [List.length_map, windows_length]
  · intro hd
    exact coarsenMean_not_dvd xs hd

theorem C2_coarsen_rows_witness :
    (12 ∣ (List.replicate 24 (1 : ℚ)).length) ∧
      (∃ ys, coarsenMean 12 (List.replicate 24 (1 : ℚ)) = some ys ∧ ys.length = 2) := by
  refine ⟨by decide, ?_⟩
  have h := (C2_coarsen_rows (List.replicate 24 (1 : ℚ))).1 (by decide)
  simpa using h

/-- Claim C3 as stated is false: the claimed output name for the example
input keeps the `cmip6_` fragment, but the code removes the whole literal
`gs:__cmip6_`. -/
theorem C3_counterexample :
    ofileOf "gs://cmip6/historical/foo.zarr" ≠ "./global/cmip6_historical_foo.zarr.csv" := by
  decide

/-- Claim C3 amended: slashes become underscores, the name is placed in
`./global/` with `.csv` appended, and every occurrence of the literal
`gs:__cmip6_` is removed, so the example input maps to
`./global/historical_foo.zarr.csv`. -/
theorem C3_ofile_derivation :
    ofileOf "gs://cmip6/historical/foo.zarr" = "./global/historical_foo.zarr.csv" := by
  decide

theorem selstrGo_ok (l : List Char) :
    ∀ (n start : ℕ), start + n ≤ l.length →
      selstrGo l (List.range' start n) = Except.ok ((l.drop start).take n)
  | 0, start, _ => by simp [selstrGo]
  | n + 1, start, h => by
    have hlt : start < l.length := by omega
    have ih := selstrGo_ok l n (start + 1) (by omega)
    rw [List.range'_succ]
    unfold selstrGo pyIndex
    rw [List.get?_eq_getElem?, List.getElem?_eq_getElem hlt, ih,
      List.drop_eq_getElem_cons hlt, List.take_succ_cons]

theorem selstrGo_not_typeError (l : List Char) :
    ∀ idxs, selstrGo l idxs ≠ Except.error PyErr.typeError
  | [] => by simp [selstrGo]
  | i :: is => by
    have ih := selstrGo_not_typeError l is
    unfold selstrGo pyIndex
    cases hg : l.get? i with
    | none => simp
    | some c =>
      cases hr : selstrGo l is with
      | ok cs => simp
      | error e =>
        rw [hr] at ih
        simp only [ne_eq, Except.error.injEq] at ih ⊢
        exact ih

/-- Claim C5: selstr on a string and a half-open range returns the
characters at those indices, and it raises a type error exactly when its
first argument is not a single string. -/
theorem C5_selstr_spec :
    (∀ (s : String) (start stop : ℕ), stop ≤ s.length →
        selstr (PyObj.str s) start stop
          = Except.ok (String.mk ((s.data.drop start).take (stop - start)))) ∧
      (∀ (a : PyObj) (start stop : ℕ),
        selstr a start stop = Except.error PyErr.typeError ↔ ∀ s2, a ≠ PyObj.str s2) := by
  constructor
  · intro s start stop h
    simp only [selstr]
    by_cases hss : start ≤ stop
    · have hlen : s.data.length = s.length := rfl
      rw [selstrGo_ok s.data (stop - start) start (by omega)]
      rfl
    · have h0 : stop - start = 0 := by omega
      rw [h0]
      rfl
  · intro a start stop
    cases a with
    | str s =>
      constructor
      · intro h
        exfalso
        simp only [selstr] at h
        cases hr : selstrGo s.data (List.range' start (stop - start)) with
        | ok cs =>
          rw [hr] at h
          simp [Except.map] at h
        | error e =>
          rw [hr] at h
          simp only [Except.map, Except.error.injEq] at h
          subst h
          exact selstrGo_not_typeError s.data _ hr
      · intro h
        exact absurd rfl (h s)
    | pyint n => simp [selstr]
    | pylist xs => simp [selstr]

theorem C5_selstr_spec_witness :
    selstr (PyObj.str "20050115") 0 4 = Except.ok "2005" ∧
      selstr (PyObj.pylist []) 0 4 = Except.error PyErr.typeError := by
  constructor
  · have h := C5_selstr_spec.1 "20050115" 0 4 (by decide)
    simpa using h
  · exact (C5_selstr_spec.2 (PyObj.pylist []) 0 4).2 (fun s2 h => PyObj.noConfusion h)

/-- Claim C6: the latitude coordinate resolver returns lat when present,
otherwise latitude when present, and fails exactly when neither name occurs
among the coordinates. -/
theorem C6_get_lat_name_spec :
    (∀ coords : List String, "lat" ∈ coords → get_lat_name coords = some "lat") ∧
      (∀ coords : List String, "lat" ∉ coords → "latitude" ∈ coords →
        get_lat_name coords = some "latitude") ∧
      (∀ coords : List String,
        get_lat_name coords = none ↔ ("lat" ∉ coords ∧ "latitude" ∉ coords)) := by
  refine ⟨?_, ?_, ?_⟩
  · intro coords h
    simp [get_lat_name, firstPresent, h]
  · intro coords h1 h2
    simp [get_lat_name, firstPresent, h1, h2]
  · intro coords
    by_cases h1 : "lat" ∈ coords <;> by_cases h2 : "latitude" ∈ coords <;>
      simp [get_lat_name, firstPresent, h1, h2]

theorem C6_get_lat_name_spec_witness :
    get_lat_name ["time", "lat"] = some "lat" ∧
      get_lat_name ["latitude"] = some "latitude" ∧
      get_lat_name ["time"] = none :=
  ⟨C6_get_lat_name_spec.1 ["time", "lat"] (by simp),
   C6_get_lat_name_spec.2.1 ["latitude"] (by simp) (by simp),
   (C6_get_lat_name_spec.2.2 ["time"]).2 (by simp)⟩

theorem contains_false (l : List String) (a : String) (h : a ∉ l) : l.contains a = false := by
  simp [List.contains, List.elem_eq_mem, h]

theorem contains_true (l : List String) (a : String) (h : a ∈ l) : l.contains a = true := by
  simp [List.contains, List.elem_eq_mem, h]

theorem findIdx?_not_mem (cols : List String) (c : String) (h : c ∉ cols) :
    cols.findIdx? (fun c2 => c2 == c) = none := by
  rw [List.findIdx?_eq_none_iff]
  intro x hx
  simp only [beq_eq_false_iff_ne, ne_eq]
  intro he
  exact h (he ▸ hx)

theorem setCol_not_mem {α : Type} (c : String) (v : α) (df : DFrame α) (h : c ∉ df.cols) :
    setCol c v df = ⟨df.cols ++ [c], df.rows.map (fun r => r ++ [v])⟩ := by
  unfold setCol
  rw [findIdx?_not_mem df.cols c h]

theorem findIdx?_append_self (cols : List String) (c : String) (h : c ∉ cols) :
    (cols ++ [c]).findIdx? (fun c2 => c2 == c) = some cols.length := by
  rw [List.findIdx?_append, findIdx?_not_mem cols c h]
  simp [List.findIdx?_cons]

theorem getVal_append_self {α : Type} (cols : List String) (r : List α) (c : String) (v : α)
    (hc : c ∉ cols) (hl : r.length = cols.length) :
    getVal (cols ++ [c]) (r ++ [v]) c = some v := by
  unfold getVal
  rw [findIdx?_append_self cols c hc]
  show (r ++ [v]).get? cols.length = some v
  rw [List.get?_eq_getElem?, List.getElem?_append_right (le_of_eq hl), hl]
  simp

theorem getVal_set {α : Type} (cols : List String) (r : List α) (c : String) (v : α) (i : ℕ)
    (hf : cols.findIdx? (fun c2 => c2 == c) = some i) (hl : r.length = cols.length) :
    getVal cols (r.set i v) c = some v := by
  unfold getVal
  rw [hf]
  show (r.set i v).get? i = some v
  have hi : i < cols.length := (List.findIdx?_eq_some_iff_findIdx_eq.mp hf).1
  rw [List.get?_eq_getElem?, List.getElem?_set_self (by omega)]

/-- After `df[c] = v`, the column `c` is present and every row carries `v`
there. -/
theorem setCol_spec {α : Type} (c : String) (v : α) (df : DFrame α)
    (hw : ∀ r ∈ df.rows, r.length = df.cols.length) :
    c ∈ (setCol c v df).cols ∧
      ∀ r ∈ (setCol c v df).rows, getVal (setCol c v df).cols r c = some v := by
  cases hf : df.cols.findIdx? (fun c2 => c2 == c) with
  | some i =>
    have heq : setCol c v df = ⟨df.cols, df.rows.map (fun r => r.set i v)⟩ := by
      unfold setCol
      rw [hf]
    rw [heq]
    constructor
    · have hany : df.cols.any (fun c2 => c2 == c) = true := by
        rw [← List.findIdx?_isSome, hf]
        rfl
      rcases List.any_eq_true.mp hany with ⟨x, hx, he⟩
      exact (eq_of_beq he) ▸ hx
    · intro r hr
      rcases List.mem_map.mp hr with ⟨r0, hr0, hr0e⟩
      rw [← hr0e]
      exact getVal_set df.cols r0 c v i hf (hw r0 hr0)
  | none =>
    have hc : c ∉ df.cols := by
      intro hmem
      have hfx := (List.findIdx?_eq_none_iff.mp hf) c hmem
      simp at hfx
    have heq : setCol c v df = ⟨df.cols ++ [c], df.rows.map (fun r => r ++ [v])⟩ :=
      setCol_not_mem c v df hc
    rw [heq]
    constructor
    · exact List.mem_append_right df.cols (List.mem_singleton.mpr rfl)
    · intro r hr
      rcases List.mem_map.mp hr with ⟨r0, hr0, hr0e⟩
      rw [← hr0e]
      exact getVal_append_self df.cols r0 c v hc (hw r0 hr0)

theorem not_mem_dropCol_cols {α : Type} (c : String) (df : DFrame α) :
    c ∉ (dropCol c df).cols := by
  unfold dropCol
  intro h
  rcases List.mem_filter.mp h with ⟨_, hp⟩
  simp at hp

/-- Claim C9: combine_df mutates both of its arguments, leaving each with a
column j that is 1 in every row, even though the returned frame has no
column j. -/
theorem C9_combine_df_mutates (df1 df2 : DFrame PVal)
    (hw1 : ∀ r ∈ df1.rows, r.length = df1.cols.length)
    (hw2 : ∀ r ∈ df2.rows, r.length = df2.cols.length) :
    ("j" ∈ (combineDfSt df1 df2).2.1.cols ∧
        ∀ r ∈ (combineDfSt df1 df2).2.1.rows,
          getVal (combineDfSt df1 df2).2.1.cols r "j" = some (PVal.i 1)) ∧
      ("j" ∈ (combineDfSt df1 df2).2.2.cols ∧
        ∀ r ∈ (combineDfSt df1 df2).2.2.rows,
          getVal (combineDfSt df1 df2).2.2.cols r "j" = some (PVal.i 1)) ∧
      "j" ∉ (combineDfSt df1 df2).1.cols :=
  ⟨setCol_spec "j" (PVal.i 1) df1 hw1,
   setCol_spec "j" (PVal.i 1) df2 hw2,
   not_mem_dropCol_cols "j" (mergeDF (setCol "j" (PVal.i 1) df1) (setCol "j" (PVal.i 1) df2))⟩

theorem C9_combine_df_mutates_witness :
    ((∀ r ∈ (DFrame.mk ["a"] [[PVal.i 5]]).rows, r.length = (DFrame.mk ["a"] [[PVal.i 5]]).cols.length) ∧
        (∀ r ∈ (DFrame.mk ["b"] [[PVal.i 6]]).rows, r.length = (DFrame.mk ["b"] [[PVal.i 6]]).cols.length)) ∧
      (("j" ∈ (combineDfSt ⟨["a"], [[PVal.i 5]]⟩ ⟨["b"], [[PVal.i 6]]⟩).2.1.cols ∧
          ∀ r ∈ (combineDfSt ⟨["a"], [[PVal.i 5]]⟩ ⟨["b"], [[PVal.i 6]]⟩).2.1.rows,
            getVal (combineDfSt ⟨["a"], [[PVal.i 5]]⟩ ⟨["b"], [[PVal.i 6]]⟩).2.1.cols r "j"
              = some (PVal.i 1)) ∧
        ("j" ∈ (combineDfSt ⟨["a"], [[PVal.i 5]]⟩ ⟨["b"], [[PVal.i 6]]⟩).2.2.cols ∧
          ∀ r ∈ (combineDfSt ⟨["a"], [[PVal.i 5]]⟩ ⟨["b"], [[PVal.i 6]]⟩).2.2.rows,
            getVal (combineDfSt ⟨["a"], [[PVal.i 5]]⟩ ⟨["b"], [[PVal.i 6]]⟩).2.2.cols r "j"
              = some (PVal.i 1)) ∧
        "j" ∉ (combineDfSt ⟨["a"], [[PVal.i 5]]⟩ ⟨["b"], [[PVal.i 6]]⟩).1.cols) :=
  ⟨⟨by decide, by decide⟩,
   C9_combine_df_mutates ⟨["a"], [[PVal.i 5]]⟩ ⟨["b"], [[PVal.i 6]]⟩ (by decide) (by decide)⟩

theorem zip_filter_not_contains (cols1 cols2 : List String) (b : List PVal)
    (hd2 : ∀ c ∈ cols2, c ∉ cols1) (hj2 : "j" ∉ cols2)
    (h2 : b.length = cols2.length) :
    (((cols2 ++ ["j"]).zip (b ++ [PVal.i 1])).filter
        (fun p => !((cols1 ++ ["j"]).contains p.1))).map Prod.snd = b := by
  rw [List.zip_append h2.symm, List.filter_append]
  have hkeep : (cols2.zip b).filter (fun p => !((cols1 ++ ["j"]).contains p.1)) = cols2.zip b := by
    rw [List.filter_eq_self]
    intro p hp
    have hmem := (List.of_mem_zip hp).1
    have hnot : p.1 ∉ cols1 ++ ["j"] := by
      intro hin
      rcases List.mem_append.mp hin with h | h
      · exact hd2 p.1 hmem h
      · exact hj2 (List.mem_singleton.mp h ▸ hmem)
    rw [contains_false _ _ hnot]
    rfl
  have hdrop : (["j"].zip [PVal.i 1]).filter (fun p => !((cols1 ++ ["j"]).contains p.1)) = [] := by
    have hj : ("j" : String) ∈ cols1 ++ ["j"] :=
      List.mem_append_right cols1 (List.mem_singleton.mpr rfl)
    simp [List.zip, contains_true _ _ hj]
  rw [hkeep, hdrop, List.append_nil]
  exact List.map_snd_zip cols2 b (le_of_eq h2)

theorem zip_filter_drop_j (cols1 cols2 : List String) (a b : List PVal)
    (hj1 : "j" ∉ cols1) (hj2 : "j" ∉ cols2)
    (h1 : a.length = cols1.length) (h2 : b.length = cols2.length) :
    ((((cols1 ++ ["j"]) ++ cols2).zip ((a ++ [PVal.i 1]) ++ b)).filter
        (fun p => !(p.1 == "j"))).map Prod.snd = a ++ b := by
  have hlen : (cols1 ++ ["j"]).length = (a ++ [PVal.i 1]).length := by
    simp [h1]
  rw [List.zip_append hlen, List.zip_append h1.symm, List.filter_append, List.filter_append]
  have hk1 : (cols1.zip a).filter (fun p => !(p.1 == "j")) = cols1.zip a := by
    rw [List.filter_eq_self]
    intro p hp
    have hmem := (List.of_mem_zip hp).1
    have : p.1 ≠ "j" := fun he => hj1 (he ▸ hmem)
    simp [this]
  have hk2 : (cols2.zip b).filter (fun p => !(p.1 == "j")) = cols2.zip b := by
    rw [List.filter_eq_self]
    intro p hp
    have hmem := (List.of_mem_zip hp).1
    have : p.1 ≠ "j" := fun he => hj2 (he ▸ hmem)
    simp [this]
  have hdrop : (["j"].zip [PVal.i 1]).filter (fun p => !(p.1 == "j")) = [] := by
    simp [List.zip]
  rw [hk1, hk2, hdrop, List.append_nil, List.map_append,
    List.map_snd_zip cols1 a (le_of_eq h1), List.map_snd_zip cols2 b (le_of_eq h2)]

theorem common_cols_j (cols1 cols2 : List String)
    (hd : ∀ c ∈ cols1, c ∉ cols2) (hj1 : "j" ∉ cols1) :
    (cols1 ++ ["j"]).filter (fun c => (cols2 ++ ["j"]).contains c) = ["j"] := by
  rw [List.filter_append]
  have h1 : cols1.filter (fun c => (cols2 ++ ["j"]).contains c) = [] := by
    rw [List.filter_eq_nil_iff]
    intro c hc
    have hnot : c ∉ cols2 ++ ["j"] := by
      intro hin
      rcases List.mem_append.mp hin with h | h
      · exact hd c hc h
      · exact hj1 (List.mem_singleton.mp h ▸ hc)
    rw [contains_false _ _ hnot]
    exact Bool.false_ne_true
  have h2 : (["j"] : List String).filter (fun c => (cols2 ++ ["j"]).contains c) = ["j"] := by
    have hj : ("j" : String) ∈ cols2 ++ ["j"] :=
      List.mem_append_right cols2 (List.mem_singleton.mpr rfl)
    simp [contains_true _ _ hj]
  rw [h1, h2, List.nil_append]

/-- Under disjoint column sets free of the name j, combine_df is exactly the
row-wise cross product with the key dropped. -/
theorem combine_df_cross (df1 df2 : DFrame PVal)
    (hd : ∀ c ∈ df1.cols, c ∉ df2.cols)
    (hj1 : "j" ∉ df1.cols) (hj2 : "j" ∉ df2.cols)
    (hw1 : ∀ r ∈ df1.rows, r.length = df1.cols.length)
    (hw2 : ∀ r ∈ df2.rows, r.length = df2.cols.length) :
    combine_df df1 df2
      = ⟨df1.cols ++ df2.cols,
         df1.rows.flatMap (fun a => df2.rows.map (fun b => a ++ b))⟩ := by
  have hstep : combine_df df1 df2
      = dropCol "j" (mergeDF (setCol "j" (PVal.i 1) df1) (setCol "j" (PVal.i 1) df2)) := rfl
  rw [hstep]
  rw [setCol_not_mem "j" (PVal.i 1) df1 hj1, setCol_not_mem "j" (PVal.i 1) df2 hj2]
  have hd2 : ∀ c ∈ df2.cols, c ∉ df1.cols := fun c hc hin => hd c hin hc
  have hmerge :
      mergeDF (⟨df1.cols ++ ["j"], df1.rows.map (fun r => r ++ [PVal.i 1])⟩ : DFrame PVal)
          ⟨df2.cols ++ ["j"], df2.rows.map (fun r => r ++ [PVal.i 1])⟩
        = ⟨(df1.cols ++ ["j"]) ++ df2.cols,
           df1.rows.flatMap (fun a =>
             df2.rows.map (fun b => (a ++ [PVal.i 1]) ++ b))⟩ := by
    unfold mergeDF
    simp only [common_cols_j df1.cols df2.cols hd hj1]
    congr 1
    · -- columns
      have hfil : (df2.cols ++ ["j"]).filter (fun c => !((df1.cols ++ ["j"]).contains c))
          = df2.cols := by
        rw [List.filter_append]
        have hk : df2.cols.filter (fun c => !((df1.cols ++ ["j"]).contains c)) = df2.cols := by
          rw [List.filter_eq_self]
          intro c hc
          have hnot : c ∉ df1.cols ++ ["j"] := by
            intro hin
            rcases List.mem_append.mp hin with h | h
            · exact hd2 c hc h
            · exact hj2 (List.mem_singleton.mp h ▸ hc)
          rw [contains_false _ _ hnot]
          rfl
        have hdj : (["j"] : List String).filter
            (fun c => !((df1.cols ++ ["j"]).contains c)) = [] := by
          have hj : ("j" : String) ∈ df1.cols ++ ["j"] :=
            List.mem_append_right df1.cols (List.mem_singleton.mpr rfl)
          simp [contains_true _ _ hj]
        rw [hk, hdj, List.append_nil]
      rw [hfil]
    · -- rows
      rw [List.flatMap_map]
      apply List.flatMap_congr
      intro a ha
      rw [List.filterMap_map]
      have hinner : ∀ b ∈ df2.rows,
          ((fun r2 => if ∀ c ∈ (["j"] : List String),
              getVal (df1.cols ++ ["j"]) (a ++ [PVal.i 1]) c
                = getVal (df2.cols ++ ["j"]) r2 c
            then some ((a ++ [PVal.i 1]) ++
              (((df2.cols ++ ["j"]).zip r2).filter
                (fun p => !((df1.cols ++ ["j"]).contains p.1))).map Prod.snd)
            else none) ∘ (fun r => r ++ [PVal.i 1])) b
            = some ((a ++ [PVal.i 1]) ++ b) := by
        intro b hb
        have hcond : ∀ c ∈ (["j"] : List String),
            getVal (df1.cols ++ ["j"]) (a ++ [PVal.i 1]) c
              = getVal (df2.cols ++ ["j"]) (b ++ [PVal.i 1]) c := by
          intro c hc
          rw [List.mem_singleton.mp hc]
          rw [getVal_append_self df1.cols a "j" (PVal.i 1) hj1 (hw1 a ha),
            getVal_append_self df2.cols b "j" (PVal.i 1) hj2 (hw2 b hb)]
        show (if _ then _ else _) = _
        rw [if_pos hcond,
          zip_filter_not_contains df1.cols df2.cols b hd2 hj2 (hw2 b hb)]
      rw [List.filterMap_congr hinner]
      rw [show (fun b => some ((a ++ [PVal.i 1]) ++ b))
          = some ∘ (fun b => (a ++ [PVal.i 1]) ++ b) from rfl]
      rw [List.filterMap_eq_map]
  rw [hmerge]
  unfold dropCol
  congr 1
  · -- columns after dropping j
    rw [List.filter_append, List.filter_append]
    have hk1 : df1.cols.filter (fun c2 => !(c2 == "j")) = df1.cols := by
      rw [List.filter_eq_self]
      intro c hc
      have : c ≠ "j" := fun he => hj1 (he ▸ hc)
      simp [this]
    have hk2 : df2.cols.filter (fun c2 => !(c2 == "j")) = df2.cols := by
      rw [List.filter_eq_self]
      intro c hc
      have : c ≠ "j" := fun he => hj2 (he ▸ hc)
      simp [this]
    have hdj : (["j"] : List String).filter (fun c2 => !(c2 == "j")) = [] := by simp
    rw [hk1, hk2, hdj, List.append_nil]
  · -- rows after dropping j
    rw [List.map_flatMap]
    apply List.flatMap_congr
    intro a ha
    rw [List.map_map]
    apply List.map_congr_left
    intro b hb
    exact zip_filter_drop_j df1.cols df2.cols a b hj1 hj2 (hw1 a ha) (hw2 b hb)

theorem sum_map_const_nat {α : Type} (l : List α) (k : ℕ) :
    (l.map (fun _ => k)).sum = l.length * k := by
  induction l with
  | nil => simp
  | cons a t ih => simp [ih, Nat.succ_mul, Nat.add_comm]

/-- Claim C4 as stated is false: when the two frames share a column name,
pandas merge joins on it as well, so a 1-row left frame and a 1-row right
frame that disagree on the shared column produce 0 rows, not 1. -/
theorem C4_counterexample :
    (DFrame.mk ["x"] [[PVal.i 0]]).rows.length = 1 ∧
      (combine_df ⟨["x"], [[PVal.i 0]]⟩ ⟨["x"], [[PVal.i 2]]⟩).rows.length
        ≠ (DFrame.mk ["x"] [[PVal.i 2]]).rows.length := by
  decide

/-- Claim C4 amended: for frames whose column sets are disjoint and free of
the name j (as in the script, where a metadata frame meets a year/value
frame), combine_df returns the row-wise cross product with the join key
removed: the columns of both frames minus j, and with a 1-row left frame
exactly as many rows as the right frame. -/
theorem C4_combine_df_cross_product (df1 df2 : DFrame PVal)
    (hd : ∀ c ∈ df1.cols, c ∉ df2.cols)
    (hj1 : "j" ∉ df1.cols) (hj2 : "j" ∉ df2.cols)
    (hw1 : ∀ r ∈ df1.rows, r.length = df1.cols.length)
    (hw2 : ∀ r ∈ df2.rows, r.length = df2.cols.length) :
    (combine_df df1 df2).cols = df1.cols ++ df2.cols ∧
      (combine_df df1 df2).rows
        = df1.rows.flatMap (fun a => df2.rows.map (fun b => a ++ b)) ∧
      (combine_df df1 df2).rows.length = df1.rows.length * df2.rows.length ∧
      (df1.rows.length = 1 →
        (combine_df df1 df2).rows.length = df2.rows.length) := by
  have h := combine_df_cross df1 df2 hd hj1 hj2 hw1 hw2
  have hlen : (combine_df df1 df2).rows.length = df1.rows.length * df2.rows.length := by
    rw [h]
    show (df1.rows.flatMap (fun a => df2.rows.map (fun b => a ++ b))).length = _
    rw [List.length_flatMap]
    have hmap : List.map (List.length ∘ fun a => df2.rows.map (fun b => a ++ b)) df1.rows
        = df1.rows.map (fun _ => df2.rows.length) := by
      apply List.map_congr_left
      intro a _
      simp
    rw [hmap, sum_map_const_nat]
  refine ⟨by rw [h], by rw [h], hlen, ?_⟩
  intro h1
  rw [hlen, h1, Nat.one_mul]

theorem C4_combine_df_cross_product_witness :
    ((∀ c ∈ (DFrame.mk ["m"] [[PVal.i 7]]).cols,
        c ∉ (DFrame.mk ["y", "v"] [[PVal.i 1, PVal.i 10], [PVal.i 2, PVal.i 20]]).cols) ∧
      (DFrame.mk ["m"] [[PVal.i 7]]).rows.length = 1) ∧
      ((combine_df ⟨["m"], [[PVal.i 7]]⟩
          ⟨["y", "v"], [[PVal.i 1, PVal.i 10], [PVal.i 2, PVal.i 20]]⟩).cols
        = ["m"] ++ ["y", "v"] ∧
      (combine_df ⟨["m"], [[PVal.i 7]]⟩
          ⟨["y", "v"], [[PVal.i 1, PVal.i 10], [PVal.i 2, PVal.i 20]]⟩).rows.length
        = (DFrame.mk ["y", "v"] [[PVal.i 1, PVal.i 10], [PVal.i 2, PVal.i 20]]).rows.length) := by
  have h := C4_combine_df_cross_product ⟨["m"], [[PVal.i 7]]⟩
    ⟨["y", "v"], [[PVal.i 1, PVal.i 10], [PVal.i 2, PVal.i 20]]⟩
    (by decide) (by decide) (by decide) (by decide) (by decide)
  exact ⟨⟨by decide, by decide⟩, h.1, h.2.2.2 (by decide)⟩

theorem driverLoop_written (process : String → Option (DFrame PVal)) :
    ∀ files : List String,
      (driverLoop process files).written
        = files.filterMap (fun f => (process f).map (fun o => (ofileOf f, o)))
  | [] => rfl
  | f :: fs => by
    have ih := driverLoop_written process fs
    cases hp : process f with
    | some out => simp [driverLoop, hp, ih]
    | none => simp [driverLoop, hp, ih]

theorem driverLoop_printed (process : String → Option (DFrame PVal)) :
    ∀ files : List String,
      (driverLoop process files).printed
        = files.filterMap (fun f =>
            match process f with
            | some _ => none
            | none => some ("problem with " ++ f))
  | [] => rfl
  | f :: fs => by
    have ih := driverLoop_printed process fs
    cases hp : process f with
    | some out => simp [driverLoop, hp, ih]
    | none => simp [driverLoop, hp, ih]

/-- Claim C7: when processing one file raises, the driver prints exactly one
diagnostic line naming that file and the remaining files are processed as if
the failed file were absent; the run completes with the partial output. -/
theorem C7_driver_skips_failures (process : String → Option (DFrame PVal))
    (fs1 : List String) (f : String) (fs2 : List String) (hf : process f = none) :
    (driverLoop process (fs1 ++ f :: fs2)).written
        = (driverLoop process (fs1 ++ fs2)).written ∧
      (driverLoop process (fs1 ++ f :: fs2)).printed
        = (driverLoop process fs1).printed
            ++ ("problem with " ++ f) :: (driverLoop process fs2).printed := by
  constructor
  · rw [driverLoop_written, driverLoop_written, List.filterMap_append, List.filterMap_append,
      List.filterMap_cons]
    rw [hf]
    rfl
  · rw [driverLoop_printed, driverLoop_printed, driverLoop_printed, List.filterMap_append,
      List.filterMap_cons]
    rw [hf]

theorem C7_driver_skips_failures_witness :
    ((fun file => if file = "a" then some (⟨[], []⟩ : DFrame PVal) else none) "b" = none) ∧
      ((driverLoop (fun file => if file = "a" then some (⟨[], []⟩ : DFrame PVal) else none)
            (["a"] ++ "b" :: ["c"])).written
          = (driverLoop (fun file => if file = "a" then some (⟨[], []⟩ : DFrame PVal) else none)
              (["a"] ++ ["c"])).written ∧
        (driverLoop (fun file => if file = "a" then some (⟨[], []⟩ : DFrame PVal) else none)
            (["a"] ++ "b" :: ["c"])).printed
          = (driverLoop (fun file => if file = "a" then some (⟨[], []⟩ : DFrame PVal) else none)
              ["a"]).printed
              ++ ("problem with " ++ "b")
                :: (driverLoop (fun file => if file = "a" then some (⟨[], []⟩ : DFrame PVal) else none)
                  ["c"]).printed) :=
  ⟨by decide,
   C7_driver_skips_failures (fun file => if file = "a" then some (⟨[], []⟩ : DFrame PVal) else none)
     ["a"] "b" ["c"] (by decide)⟩

theorem sum_map_mul (l : List ℚ) (c : ℚ) : (l.map (fun x => c * x)).sum = c * l.sum := by
  induction l with
  | nil => simp
  | cons a t ih => simp [ih, mul_add]

theorem meanQ_replicate (n : ℕ) (a : ℚ) (hn : n ≠ 0) : meanQ (List.replicate n a) = a := by
  unfold meanQ
  rw [List.sum_replicate, List.length_replicate, nsmul_eq_mul, mul_comm, mul_div_assoc,
    div_self (Nat.cast_ne_zero.mpr hn), mul_one]

theorem windows_replicate {α : Type} (w : ℕ) :
    ∀ (k : ℕ) (a : α), windows w k (List.replicate (w * k) a)
      = List.replicate k (List.replicate w a)
  | 0, _ => rfl
  | k + 1, a => by
    show windows w (k + 1) (List.replicate (w * (k + 1)) a) = _
    unfold windows
    rw [List.take_replicate, List.drop_replicate]
    have h1 : w ⊓ (w * (k + 1)) = w := by
      apply min_eq_left
      calc w = w * 1 := (mul_one w).symm
        _ ≤ w * (k + 1) := Nat.mul_le_mul_left w (by omega)
    have h2 : w * (k + 1) - w = w * k := by ring_nf; omega
    rw [h1, h2, windows_replicate w k a]
    rfl

theorem coarsenMean_replicate (k : ℕ) (a : ℚ) :
    coarsenMean 12 (List.replicate (12 * k) a) = some (List.replicate k a) := by
  unfold coarsenMean
  rw [if_pos ⟨by norm_num, by rw [List.length_replicate]; exact Dvd.intro k rfl⟩]
  rw [List.length_replicate, Nat.mul_div_cancel_left k (by norm_num), windows_replicate,
    List.map_replicate, meanQ_replicate 12 a (by norm_num)]

theorem zip_replicate_len {α β : Type} (X : α) (w : List β) :
    (List.replicate w.length X).zip w = w.map (fun x => (X, x)) := by
  induction w with
  | nil => rfl
  | cons b t ih => simp [List.replicate, List.zip_cons_cons, ih]

/-- On a spatially constant field of ones, the weighted spatial mean is the
mean of the weight vector, at every time step. -/
theorem weightedMeanSeries_const (w : List ℚ) (nlon : ℕ) (T : ℕ) (hn : nlon ≠ 0) :
    weightedMeanSeries w w.length nlon
        (List.replicate T (List.replicate w.length (List.replicate nlon 1)))
      = List.replicate T (meanQ w) := by
  unfold weightedMeanSeries
  rw [List.map_replicate]
  congr 1
  rw [zip_replicate_len (List.replicate nlon (1 : ℚ)) w, List.map_map]
  have hmap : ((fun p : List ℚ × ℚ => (p.1.map (fun v => v * p.2)).sum)
        ∘ fun x => (List.replicate nlon (1 : ℚ), x))
      = fun x => (nlon : ℚ) * x := by
    funext x
    show ((List.replicate nlon (1 : ℚ)).map (fun v => v * x)).sum = (nlon : ℚ) * x
    rw [List.map_replicate, one_mul, List.sum_replicate, nsmul_eq_mul]
  rw [hmap, sum_map_mul]
  rw [mul_comm ((w.length : ℚ)) ((nlon : ℚ)), mul_div_mul_left w.sum (w.length : ℚ)
    (Nat.cast_ne_zero.mpr hn)]
  rfl

theorem latWeights_length (cosd : ℚ → ℚ) (lats : List ℚ) :
    (latWeights cosd lats).length = lats.length := by
  simp [latWeights]

theorem yearsOf_ok :
    ∀ ts : List String, (∀ s2 ∈ ts, 4 ≤ s2.length) →
      yearsOf ts = some (ts.map (fun s2 => String.mk (s2.data.take 4)))
  | [], _ => rfl
  | t :: ts, h => by
    have hok := selstrGo_ok t.data 4 0 (by
      have : t.data.length = t.length := rfl
      have h4 := h t (List.mem_cons_self t ts)
      omega)
    have hsel : selstr (PyObj.str t) 0 4 = Except.ok (String.mk (t.data.take 4)) := by
      simp only [selstr]
      have h40 : (4 - 0 : ℕ) = 4 := rfl
      rw [h40, hok]
      rfl
    have ih := yearsOf_ok ts (fun s2 hs2 => h s2 (List.mem_cons_of_mem t hs2))
    unfold yearsOf
    rw [hsel, ih]
    rfl

theorem coarsenAll_names (w : List ℚ) (nlat nlon : ℕ) :
    ∀ (vs : List (String × String × List (List (List ℚ)))) (rv : List (String × List ℚ)),
      coarsenAll w nlat nlon vs = some rv →
      rv.map Prod.fst = vs.map (fun p => p.1)
  | [], rv, h => by
    unfold coarsenAll at h
    rw [← Option.some.inj h]
    rfl
  | p :: ps, rv, h => by
    unfold coarsenAll at h
    cases hc : coarsenMean 12 (weightedMeanSeries w nlat nlon p.2.2) with
    | none => rw [hc] at h; exact Option.noConfusion h
    | some ys =>
      rw [hc] at h
      cases hr : coarsenAll w nlat nlon ps with
      | none => rw [hr] at h; exact Option.noConfusion h
      | some rest =>
        rw [hr] at h
        have hrv : rv = (p.1, ys) :: rest := (Option.some.inj h).symm
        subst hrv
        have ih := coarsenAll_names w nlat nlon ps rest hr
        simp [ih]

/-- Claim C10: the reduced values are read from the hardcoded name tos, so a
dataset with no variable named tos makes global_mean raise (the file is then
skipped), even when its declared variable_id names a present variable and
the metadata extraction succeeded. -/
theorem C10_hardcoded_tos (cosd : ℚ → ℚ) (fmt : ℚ → String) (ds : DSet)
    (htos : ∀ p ∈ ds.vars, p.1 ≠ "tos")
    (hvid : ∃ p ∈ ds.vars, p.1 = ds.variable_id) :
    (get_ds_meta_m ds).isSome = true ∧ global_mean_m cosd fmt ds = none := by
  have hsome : (ds.vars.find? (fun p => p.1 == ds.variable_id)).isSome = true := by
    rw [List.find?_isSome]
    rcases hvid with ⟨p, hp, he⟩
    exact ⟨p, hp, beq_iff_eq.mpr he⟩
  constructor
  · unfold get_ds_meta_m
    cases hfind : ds.vars.find? (fun p => p.1 == ds.variable_id) with
    | none => rw [hfind] at hsome; exact Bool.noConfusion hsome
    | some p => rfl
  · cases hmeta : get_ds_meta_m ds with
    | none => unfold global_mean_m; simp only [hmeta]
    | some meta =>
      cases hlat : get_lat_name ds.coordNames with
      | none => unfold global_mean_m; simp only [hmeta, hlat]
      | some latn =>
        cases hca : coarsenAll (latWeights cosd ds.lats) ds.lats.length ds.nlon ds.vars with
        | none =>
          cases hct : coarsenMean 12 ds.times with
          | none => unfold global_mean_m; simp only [hmeta, hlat, hca, hct]
          | some tm => unfold global_mean_m; simp only [hmeta, hlat, hca, hct]
        | some reduced =>
          cases hct : coarsenMean 12 ds.times with
          | none => unfold global_mean_m; simp only [hmeta, hlat, hca, hct]
          | some tm =>
            cases hys : yearsOf (tm.map fmt) with
            | none => unfold global_mean_m; simp only [hmeta, hlat, hca, hct, hys]
            | some year =>
              have hfind : reduced.find? (fun p => p.1 == "tos") = none := by
                rw [List.find?_eq_none]
                intro p hp
                have hmem : p.1 ∈ reduced.map Prod.fst := List.mem_map_of_mem Prod.fst hp
                rw [coarsenAll_names (latWeights cosd ds.lats) ds.lats.length ds.nlon
                  ds.vars reduced hca] at hmem
                rcases List.mem_map.mp hmem with ⟨q, hq, he⟩
                simp only [beq_iff_eq]
                rw [← he]
                exact htos q hq
              unfold global_mean_m
              simp only [hmeta, hlat, hca, hct, hys, hfind]

/-- A concrete dataset whose single data variable is named sst, not tos,
while variable_id declares the present name sst. -/
def sstDs : DSet :=
  ⟨"sst", "historical", "r1i1p1f1", "MOD", ["lat"], [0], 1, List.replicate 24 0,
   [("sst", "K", List.replicate 24 [[1]])]⟩

theorem C10_hardcoded_tos_witness :
    ((∀ p ∈ sstDs.vars, p.1 ≠ "tos") ∧ (∃ p ∈ sstDs.vars, p.1 = sstDs.variable_id)) ∧
      ((get_ds_meta_m sstDs).isSome = true ∧
        global_mean_m (fun _ => 1) (fun _ => "20000101") sstDs = none) :=
  ⟨⟨by decide, by decide⟩,
   C10_hardcoded_tos (fun _ => 1) (fun _ => "20000101") sstDs (by decide) (by decide)⟩

/-- Claim C8: a synthetic dataset of 24 monthly steps, constant value 1
everywhere, yields a 2-row table with value 1 and area global in both rows,
for any weighting function with nonzero mean cosine. -/
theorem C8_constant_field (cosd : ℚ → ℚ) (fmt : ℚ → String) (u : String) (ds : DSet)
    (hvars : ds.vars
      = [("tos", u,
          List.replicate 24 (List.replicate ds.lats.length (List.replicate ds.nlon 1)))])
    (hvid : ds.variable_id = "tos")
    (hlatc : "lat" ∈ ds.coordNames)
    (ht : ds.times.length = 24)
    (hm : meanQ (ds.lats.map cosd) ≠ 0)
    (hn : ds.nlon ≠ 0)
    (hf : ∀ t : ℚ, 4 ≤ (fmt t).length) :
    ∃ out, global_mean_m cosd fmt ds = some out ∧ out.rows.length = 2 ∧
      ∀ r ∈ out.rows,
        getVal out.cols r "value" = some (PVal.q 1) ∧
        getVal out.cols r "area" = some (PVal.s "global") := by
  have hmeta : get_ds_meta_m ds
      = some ⟨["variable", "experiment", "units", "ensemble", "model"],
          [[PVal.s "tos", PVal.s ds.experiment_id, PVal.s u,
            PVal.s ds.variant_label, PVal.s ds.source_id]]⟩ := by
    unfold get_ds_meta_m
    rw [hvars, hvid]
    rfl
  have hlat : get_lat_name ds.coordNames = some "lat" := by
    simp [get_lat_name, firstPresent, hlatc]
  have hwmean : meanQ (latWeights cosd ds.lats) = 1 := meanQ_latWeights cosd ds.lats hm
  have hwlen : (latWeights cosd ds.lats).length = ds.lats.length :=
    latWeights_length cosd ds.lats
  have hseries : weightedMeanSeries (latWeights cosd ds.lats) ds.lats.length ds.nlon
      (List.replicate 24 (List.replicate ds.lats.length (List.replicate ds.nlon 1)))
      = List.replicate 24 (1 : ℚ) := by
    rw [← hwlen, weightedMeanSeries_const (latWeights cosd ds.lats) ds.nlon 24 hn, hwmean]
  have hcr : coarsenMean 12 (List.replicate 24 (1 : ℚ)) = some (List.replicate 2 (1 : ℚ)) := by
    have h := coarsenMean_replicate 2 (1 : ℚ)
    norm_num at h
    exact h
  have hca : coarsenAll (latWeights cosd ds.lats) ds.lats.length ds.nlon ds.vars
      = some [("tos", List.replicate 2 (1 : ℚ))] := by
    rw [hvars]
    simp only [coarsenAll]
    rw [hseries, hcr]
  obtain ⟨tm, htm, htmlen⟩ : ∃ tm, coarsenMean 12 ds.times = some tm ∧ tm.length = 2 := by
    refine ⟨_, coarsenMean_dvd ds.times (by rw [ht]; norm_num), ?_⟩
    rw [List.length_map, windows_length, ht]
  obtain ⟨y1, y2, hyy⟩ : ∃ y1 y2, yearsOf (tm.map fmt) = some [y1, y2] := by
    have hall : ∀ s2 ∈ tm.map fmt, 4 ≤ s2.length := by
      intro s2 hs2
      rcases List.mem_map.mp hs2 with ⟨t, _, he⟩
      rw [← he]
      exact hf t
    have hok := yearsOf_ok (tm.map fmt) hall
    have hlen2 : ((tm.map fmt).map (fun s2 => String.mk (s2.data.take 4))).length = 2 := by
      rw [List.length_map, List.length_map, htmlen]
    rcases List.length_eq_two.mp hlen2 with ⟨z1, z2, hz⟩
    exact ⟨z1, z2, by rw [hok, hz]⟩
  have hcomb : combine_df
      ⟨["variable", "experiment", "units", "ensemble", "model"],
        [[PVal.s "tos", PVal.s ds.experiment_id, PVal.s u, PVal.s ds.variant_label,
          PVal.s ds.source_id]]⟩
      ⟨["year", "value"], [[PVal.s y1, PVal.q 1], [PVal.s y2, PVal.q 1]]⟩
      = ⟨["variable", "experiment", "units", "ensemble", "model", "year", "value"],
          [[PVal.s "tos", PVal.s ds.experiment_id, PVal.s u, PVal.s ds.variant_label,
            PVal.s ds.source_id, PVal.s y1, PVal.q 1],
           [PVal.s "tos", PVal.s ds.experiment_id, PVal.s u, PVal.s ds.variant_label,
            PVal.s ds.source_id, PVal.s y2, PVal.q 1]]⟩ := by
    have hw1 : ∀ r ∈ (DFrame.mk ["variable", "experiment", "units", "ensemble", "model"]
        [[PVal.s "tos", PVal.s ds.experiment_id, PVal.s u, PVal.s ds.variant_label,
          PVal.s ds.source_id]]).rows,
        r.length = (DFrame.mk ["variable", "experiment", "units", "ensemble", "model"]
          [[PVal.s "tos", PVal.s ds.experiment_id, PVal.s u, PVal.s ds.variant_label,
            PVal.s ds.source_id]]).cols.length := by
      intro r hr
      simp only [List.mem_singleton] at hr
      subst hr
      rfl
    have hw2 : ∀ r ∈ (DFrame.mk ["year", "value"]
        [[PVal.s y1, PVal.q 1], [PVal.s y2, PVal.q 1]]).rows,
        r.length = (DFrame.mk ["year", "value"]
          [[PVal.s y1, PVal.q 1], [PVal.s y2, PVal.q 1]]).cols.length := by
      intro r hr
      rcases List.mem_cons.mp hr with h | h
      · subst h; rfl
      · rcases List.mem_singleton.mp h with h2
        subst h2
        rfl
    have hdj : ∀ c ∈ (["variable", "experiment", "units", "ensemble", "model"] : List String),
        c ∉ (["year", "value"] : List String) := by decide
    have hj1 : ("j" : String)
        ∉ (["variable", "experiment", "units", "ensemble", "model"] : List String) := by decide
    have hj2 : ("j" : String) ∉ (["year", "value"] : List String) := by decide
    have h := combine_df_cross
      ⟨["variable", "experiment", "units", "ensemble", "model"],
        [[PVal.s "tos", PVal.s ds.experiment_id, PVal.s u, PVal.s ds.variant_label,
          PVal.s ds.source_id]]⟩
      ⟨["year", "value"], [[PVal.s y1, PVal.q 1], [PVal.s y2, PVal.q 1]]⟩
      hdj hj1 hj2 hw1 hw2
    rw [h]
    simp
  have harea : ("area" : String) ∉
      (["variable", "experiment", "units", "ensemble", "model", "year", "value"] : List String) := by
    decide
  have hmain : global_mean_m cosd fmt ds
      = some ⟨["variable", "experiment", "units", "ensemble", "model", "year", "value", "area"],
          [[PVal.s "tos", PVal.s ds.experiment_id, PVal.s u, PVal.s ds.variant_label,
            PVal.s ds.source_id, PVal.s y1, PVal.q 1, PVal.s "global"],
           [PVal.s "tos", PVal.s ds.experiment_id, PVal.s u, PVal.s ds.variant_label,
            PVal.s ds.source_id, PVal.s y2, PVal.q 1, PVal.s "global"]]⟩ := by
    unfold global_mean_m
    simp only [hmeta, hlat, hca, htm, hyy]
    simp only [List.find?, beq_self_eq_true]
    simp only [List.replicate, List.zipWith]
    rw [hcomb]
    rw [setCol_not_mem "area" (PVal.s "global")
      ⟨["variable", "experiment", "units", "ensemble", "model", "year", "value"],
        [[PVal.s "tos", PVal.s ds.experiment_id, PVal.s u, PVal.s ds.variant_label,
          PVal.s ds.source_id, PVal.s y1, PVal.q 1],
         [PVal.s "tos", PVal.s ds.experiment_id, PVal.s u, PVal.s ds.variant_label,
          PVal.s ds.source_id, PVal.s y2, PVal.q 1]]⟩ harea]
    rfl
  refine ⟨_, hmain, rfl, ?_⟩
  intro r hr
  rcases List.mem_cons.mp hr with h | h
  · subst h
    exact ⟨rfl, rfl⟩
  · rcases List.mem_singleton.mp h with h2
    subst h2
    exact ⟨rfl, rfl⟩

/-- A concrete synthetic dataset: 24 monthly steps, a single latitude, a
single longitude, constant value 1. -/
def constDs : DSet :=
  ⟨"tos", "historical", "r1i1p1f1", "MOD", ["lat"], [0], 1, List.replicate 24 0,
   [("tos", "degC", List.replicate 24 (List.replicate 1 (List.replicate 1 1)))]⟩

theorem C8_constant_field_witness :
    (constDs.vars = [("tos", "degC",
        List.replicate 24 (List.replicate constDs.lats.length (List.replicate constDs.nlon 1)))] ∧
      constDs.variable_id = "tos" ∧ "lat" ∈ constDs.coordNames ∧ constDs.times.length = 24 ∧
      meanQ (constDs.lats.map (fun _ => (1 : ℚ))) ≠ 0 ∧ constDs.nlon ≠ 0 ∧
      (∀ t : ℚ, 4 ≤ ((fun _ : ℚ => "20000101") t).length)) ∧
      (∃ out, global_mean_m (fun _ => (1 : ℚ)) (fun _ : ℚ => "20000101") constDs = some out ∧
        out.rows.length = 2 ∧
        ∀ r ∈ out.rows,
          getVal out.cols r "value" = some (PVal.q 1) ∧
          getVal out.cols r "area" = some (PVal.s "global")) :=
  ⟨⟨rfl, rfl, by decide, by decide, by norm_num [constDs, meanQ], by decide,
    fun t => by show (4 : ℕ) ≤ ("20000101" : String).length; decide⟩,
   C8_constant_field (fun _ => 1) (fun _ : ℚ => "20000101") "degC" constDs rfl rfl
     (by decide) (by decide) (by norm_num [constDs, meanQ]) (by decide)
     (fun t => by show (4 : ℕ) ≤ ("20000101" : String).length; decide)⟩

end GlobalTos


